import Mathlib

/-!
Verification of target-parquet against its specification.

This file shallowly embeds the parts of the repository that the checked
claims are about:

* src/target_parquet/utils/parquet.py : the schema-field to pyarrow-field
  translation, table construction and table concatenation;
* src/target_parquet/target.py : the Decimal-aware JSON state encoder;
* src/target_parquet/__init__.py : the producer / consumer message pipeline
  (persist_messages);
* the Stream-Sink batching pipeline, modelled from the spec where the
  corresponding source file (target_parquet/sinks.py) is not present under
  src/.

Machine types: pyarrow column types are a small closed inductive; values are
an inductive of JSON-like primitives; Python dicts are association lists with
first-match lookup (insertion by prepending, lookup by first match, which
models overwriting assignment).
-/

namespace TargetParquet

/-- The closed set of pyarrow column types that the target ever produces
(values of the FIELD_TYPE_TO_PYARROW dictionary in utils/parquet.py). -/
inductive PAType where
  | paBool
  | paString
  | paInt64
  | paFloat64
  | paTimestampUs
deriving DecidableEq, Repr

/-- A pyarrow field: name, column type, nullable flag (pa.field). -/
structure PAField where
  name : String
  ptype : PAType
  nullable : Bool
deriving DecidableEq, Repr

/-- A pyarrow schema is an ordered list of fields (pa.schema). -/
abbrev PASchema : Type := List PAField

/-- FIELD_TYPE_TO_PYARROW from utils/parquet.py, as a partial lookup:
the dictionary from uppercase JSON-schema type names to pyarrow types. -/
def FIELD_TYPE_TO_PYARROW (t : String) : Option PAType :=
  if t = "BOOLEAN" then some PAType.paBool
  else if t = "STRING" then some PAType.paString
  else if t = "ARRAY" then some PAType.paString
  else if t = "INTEGER" then some PAType.paInt64
  else if t = "NUMBER" then some PAType.paFloat64
  else if t = "DATETIME" then some PAType.paTimestampUs
  else if t = "OBJECT" then some PAType.paString
  else none

/-- FORMAT_MAPPING from utils/parquet.py: semantic string formats that the
opt-in cast-by-format policy reclassifies. -/
def FORMAT_MAPPING (f : String) : Option String :=
  if f = "singer.decimal" then some "NUMBER"
  else if f = "date-time" then some "DATETIME"
  else none

/-- The JSON-schema "type" entry of a field: either a single type name or a
list of type names (the code distinguishes the two with isinstance). -/
inductive TypeDecl where
  | strT (s : String)
  | listT (l : List String)
deriving DecidableEq, Repr

/-- The fragment of a JSON-schema property that _field_type_to_pyarrow_field
reads: the optional "type" entry, the "type" entries of the "anyOf" list,
and the optional "format" entry. -/
structure InputTypes where
  type : Option TypeDecl := none
  anyOf : List (Option TypeDecl) := []
  format : Option String := none
deriving DecidableEq, Repr

/-- The anyOf fallback loop of _field_type_to_pyarrow_field: collect the
truthy "type" entries of the anyOf list, extending for list-valued entries
and appending for string-valued ones (falsy entries are skipped by the
walrus test). -/
def anyOfTypes (entries : List (Option TypeDecl)) : List String :=
  entries.foldl
    (fun acc e =>
      match e with
      | some (TypeDecl.strT s) => if s = "" then acc else acc ++ [s]
      | some (TypeDecl.listT l) => if l = [] then acc else acc ++ l
      | none => acc)
    []

/-- The type list that _field_type_to_pyarrow_field computes before
uppercasing: input_types.get("type", []) with the anyOf fallback when that
value is falsy, then wrapped in a singleton when it is a string.
Returns none exactly when Python raises: the declared type is a falsy
string and the fallback tries to call extend or append on it. -/
def pythonTypesList (input_types : InputTypes) : Option (List String) :=
  match input_types.type.getD (TypeDecl.listT []) with
  | TypeDecl.listT l =>
      if l = [] then some (anyOfTypes input_types.anyOf) else some l
  | TypeDecl.strT s =>
      if s = "" then
        if anyOfTypes input_types.anyOf = [] then some [s] else none
      else some [s]

/-- The uppercasing that the code applies to type names (str.upper on the
ASCII type names), written over the character list so that it reduces. -/
def pyUpper (s : String) : String := String.mk (s.data.map Char.toUpper)

/-- _cast_input_type_by_format from utils/parquet.py: only casts when the
resolved type is STRING, and then looks the format up in FORMAT_MAPPING,
defaulting to the input type. -/
def _cast_input_type_by_format (format input_type : String) : String :=
  if input_type ≠ "STRING" then input_type
  else (FORMAT_MAPPING format).getD input_type

/-- _field_type_to_pyarrow_field from utils/parquet.py.  The error case is
the AttributeError Python raises when the declared type is a falsy string
and a truthy anyOf entry is appended to it; every other input yields a
field.  Mirrors the source order: nullable is computed from the uppercased
list before the first NULL entry is removed, the resolved type is the head
of the remainder (empty string when none), the optional cast-by-format step
runs only for a truthy format, and unknown resolved types default to
pa.string(). -/
def _field_type_to_pyarrow_field (field_name : String) (input_types : InputTypes)
    (required_fields : List String) (cast_by_format : Bool) :
    Except String PAField :=
  match pythonTypesList input_types with
  | none => Except.error "AttributeError"
  | some types =>
      let types_uppercase := types.map pyUpper
      let nullable := types_uppercase.contains "NULL" || ! required_fields.contains field_name
      let remaining := types_uppercase.erase "NULL"
      let input_type := remaining.headD ""
      let casted :=
        if cast_by_format then
          match input_types.format with
          | some f => if f = "" then input_type else _cast_input_type_by_format f input_type
          | none => input_type
        else input_type
      Except.ok ⟨field_name, (FIELD_TYPE_TO_PYARROW casted).getD PAType.paString, nullable⟩

/-- The resolved primitive type of a computed type list: the first entry
after uppercasing and removing the first NULL, the empty string when none
remains. -/
def resolvedOf (ts : List String) : String :=
  ((ts.map pyUpper).erase "NULL").headD ""

/-- A primitive cell value of a record. -/
inductive PValue where
  | pstr (s : String)
  | pint (n : Int)
  | pbool (b : Bool)
  | pnum (q : ℚ)
deriving DecidableEq, Repr

/-- A flattened record: a Python dict from column path to a primitive value
or an explicit None, as an association list with first-match lookup. -/
abbrev RecordDict : Type := List (String × Option PValue)

/-- dict.get on a record: none both when the key is absent and when the key
is present with value None (both become null in the built table). -/
def dictGet (r : RecordDict) (k : String) : Option PValue :=
  match r.find? (fun p => p.1 = k) with
  | some p => p.2
  | none => none

/-- A pyarrow table in the value model: ordered named columns, each a list
of nullable cell values (row order is list order). -/
structure PATable where
  cols : List (String × List (Option PValue))
deriving DecidableEq, Repr

/-- len(table): the number of rows, read off the first column. -/
def PATable.numRows (t : PATable) : Nat :=
  (t.cols.headD ("", [])).2.length

/-- create_pyarrow_table from utils/parquet.py: the dict comprehension
builds one column per schema name, in schema order, whose row i is
row.get(name) of the i-th record; pa.table preserves that order and
Table.cast only converts column types, leaving names, values and row order
unchanged, so it is the identity in this value model. -/
def create_pyarrow_table (list_dict : List RecordDict) (schema : PASchema) : PATable :=
  ⟨schema.map (fun f => (f.name, list_dict.map (fun row => dictGet row f.name)))⟩

/-- pa.concat_tables on two tables of the same schema: columns are aligned
positionally (equal names) and their row lists appended, first table first. -/
def pa_concat_two (t1 t2 : PATable) : PATable :=
  ⟨(t1.cols.zip t2.cols).map (fun p => (p.1.1, p.1.2 ++ p.2.2))⟩

/-- concat_tables from utils/parquet.py.  The existing table argument is
optional (the sink starts with None); a present table is truthy exactly
when it has rows (Python truthiness of pa.Table goes through its length). -/
def concat_tables (records : List RecordDict) (pyarrow_table : Option PATable)
    (pyarrow_schema : PASchema) : Option PATable :=
  if records = [] then pyarrow_table
  else
    let new_table := create_pyarrow_table records pyarrow_schema
    match pyarrow_table with
    | some t => if 0 < t.numRows then some (pa_concat_two t new_table) else some new_table
    | none => some new_table

/-- The "properties" and "required" entries of a flattened schema
dictionary, as read by flatten_schema_to_pyarrow_schema. -/
structure FlatSchemaDict where
  properties : List (String × InputTypes)
  required : List String
deriving DecidableEq, Repr

/-- flatten_schema_to_pyarrow_schema from utils/parquet.py: one pyarrow
field per property, in declaration order; field construction can raise, and
the first raise aborts the schema. -/
def flatten_schema_to_pyarrow_schema (d : FlatSchemaDict) (cast_by_format : Bool) :
    Except String PASchema :=
  d.properties.mapM
    (fun p => _field_type_to_pyarrow_field p.1 p.2 d.required cast_by_format)

/-- A JSON-encodable Python value as passed to the state writer.  jdec is a
decimal.Decimal (exact rational); jfloat is a Python float, modelled as the
exact rational it came from, so float(Decimal) is value-preserving here. -/
inductive JVal where
  | jnull
  | jbool (b : Bool)
  | jint (n : Int)
  | jfloat (q : ℚ)
  | jdec (q : ℚ)
  | jstr (s : String)
  | jarr (elems : List JVal)
  | jobj (fields : List (String × JVal))

/-- The rendering of a Python float by json.dumps (shared by both encoders,
so its exact spelling is irrelevant to the theorems). -/
def renderFloat (q : ℚ) : String := toString q

mutual

/-- The recursive Decimal replacement that DecimalEncoder performs: every
Decimal at any depth becomes the equivalent float; everything else is kept. -/
def normalizeDecimals : JVal → JVal
  | JVal.jnull => JVal.jnull
  | JVal.jbool b => JVal.jbool b
  | JVal.jint n => JVal.jint n
  | JVal.jfloat q => JVal.jfloat q
  | JVal.jdec q => JVal.jfloat q
  | JVal.jstr s => JVal.jstr s
  | JVal.jarr l => JVal.jarr (normList l)
  | JVal.jobj l => JVal.jobj (normObj l)

/-- normalizeDecimals on array elements. -/
def normList : List JVal → List JVal
  | [] => []
  | v :: rest => normalizeDecimals v :: normList rest

/-- normalizeDecimals on object entries. -/
def normObj : List (String × JVal) → List (String × JVal)
  | [] => []
  | (k, v) :: rest => (k, normalizeDecimals v) :: normObj rest

end

mutual

/-- json.dumps with the default encoder: total on Decimal-free values, and
none (a raised TypeError) as soon as a Decimal appears at any depth. -/
def json_dumps : JVal → Option String
  | JVal.jnull => some "null"
  | JVal.jbool b => some (if b then "true" else "false")
  | JVal.jint n => some (toString n)
  | JVal.jfloat q => some (renderFloat q)
  | JVal.jdec _ => none
  | JVal.jstr s => some ("\"" ++ s ++ "\"")
  | JVal.jarr l => (dumpsList l).map (fun body => "[" ++ body ++ "]")
  | JVal.jobj l => (dumpsObj l).map (fun body => "\x7b" ++ body ++ "\x7d")

/-- json.dumps of the comma-separated array body. -/
def dumpsList : List JVal → Option String
  | [] => some ""
  | [v] => json_dumps v
  | v :: rest => do
      let hd ← json_dumps v
      let tl ← dumpsList rest
      some (hd ++ ", " ++ tl)

/-- json.dumps of the comma-separated object body. -/
def dumpsObj : List (String × JVal) → Option String
  | [] => some ""
  | [(k, v)] => (json_dumps v).map (fun s => "\"" ++ k ++ "\": " ++ s)
  | (k, v) :: rest => do
      let hd ← json_dumps v
      let tl ← dumpsObj rest
      some ("\"" ++ k ++ "\": " ++ hd ++ ", " ++ tl)

end

mutual

/-- json.dumps with cls=DecimalEncoder from target.py: identical to the
default encoder except that a Decimal is rendered as its float equivalent
instead of raising. -/
def json_dumps_decimal_encoder : JVal → String
  | JVal.jnull => "null"
  | JVal.jbool b => if b then "true" else "false"
  | JVal.jint n => toString n
  | JVal.jfloat q => renderFloat q
  | JVal.jdec q => renderFloat q
  | JVal.jstr s => "\"" ++ s ++ "\""
  | JVal.jarr l => "[" ++ dumpsListEnc l ++ "]"
  | JVal.jobj l => "\x7b" ++ dumpsObjEnc l ++ "\x7d"

/-- DecimalEncoder dumps of the array body. -/
def dumpsListEnc : List JVal → String
  | [] => ""
  | [v] => json_dumps_decimal_encoder v
  | v :: rest => json_dumps_decimal_encoder v ++ ", " ++ dumpsListEnc rest

/-- DecimalEncoder dumps of the object body. -/
def dumpsObjEnc : List (String × JVal) → String
  | [] => ""
  | [(k, v)] => "\"" ++ k ++ "\": " ++ json_dumps_decimal_encoder v
  | (k, v) :: rest =>
      "\"" ++ k ++ "\": " ++ json_dumps_decimal_encoder v ++ ", " ++ dumpsObjEnc rest

end

/-- _write_state_message from target.py: the emitted checkpoint line is the
DecimalEncoder encoding of the state followed by a newline. -/
def _write_state_message (state : JVal) : String :=
  json_dumps_decimal_encoder state ++ "\n"

/-- One parsed input line as the producer of __init__.py sees it: a typed
singer message, an unknown type, or a line that fails to parse.  The valid
flag of a record is the outcome of the Draft4Validator check, which is
external to the core. -/
inductive Msg where
  | record (stream : String) (rec : RecordDict) (valid : Bool)
  | state (value : JVal)
  | schema (stream : String) (schema : FlatSchemaDict) (key_properties : List String)
  | other (t : String)
  | malformed (line : String)

/-- An entry of the work queue between producer and consumer: the payload
triples put by w_queue.put, tagged by MessageType. -/
inductive QItem where
  | qrecord (stream : String) (payload : RecordDict)
  | qschema (stream : String) (payload : List (String × InputTypes))
  | qeof
deriving DecidableEq, Repr

/-- Modelled from the spec: the Record Flattener (function flatten of
target_parquet/helpers.py, which is not present under src/).  On a record
that is already flat it restricts the record to the paths declared by the
flattened schema, in schema order, with null for a declared path the record
does not carry. -/
def flattenRecord (rec : RecordDict) (schema : FlatSchemaDict) : RecordDict :=
  schema.properties.map (fun p => (p.1, dictGet rec p.1))

/-- The producer of persist_messages in __init__.py: one pass over the
messages, threading the mutable schemas dict (an association list updated
by shadowing) and the state variable.  It returns the whole sequence of
queue puts together with either the final state or the raised exception;
in both the normal and the exceptional exit an EOF sentinel is put last.
A RECORD is validated, flattened and enqueued, then clears state; a STATE
overwrites state; a SCHEMA registers the stream and enqueues the flattened
schema; unknown types are logged and skipped. -/
def producerLoop : List Msg → List (String × FlatSchemaDict) → Option JVal →
    List QItem × Except String (Option JVal)
  | [], _, st => ([QItem.qeof], Except.ok st)
  | m :: rest, schemas, st =>
      match m with
      | Msg.malformed line =>
          ([QItem.qeof], Except.error ("Unable to parse:\n" ++ line))
      | Msg.record s rec valid =>
          match schemas.find? (fun p => p.1 = s) with
          | some entry =>
              if valid then
                let out := producerLoop rest schemas none
                (QItem.qrecord s (flattenRecord rec entry.2) :: out.1, out.2)
              else ([QItem.qeof], Except.error "ValidationError")
          | none =>
              ([QItem.qeof],
                Except.error
                  ("A record for stream " ++ s ++
                    " was encountered before a corresponding schema"))
      | Msg.state v => producerLoop rest schemas (some v)
      | Msg.schema s d _ =>
          let out := producerLoop rest ((s, d) :: schemas) st
          (QItem.qschema s d.properties :: out.1, out.2)
      | Msg.other _ => producerLoop rest schemas st

/-- The producer run from the initial empty dicts of persist_messages. -/
def producer (msgs : List Msg) : List QItem × Except String (Option JVal) :=
  producerLoop msgs [] none

/-- The consumer loop of persist_messages in __init__.py: it drains the
queue until the EOF sentinel.  Every batching and file-writing statement in
its body is commented out in the source, so no queue item ever extends
files_created. -/
def consumerLoop : List QItem → List String → List String
  | [], files => files
  | QItem.qeof :: _, files => files
  | _ :: rest, files => consumerLoop rest files

/-- The files_created list the consumer ends with. -/
def consumer (q : List QItem) : List String :=
  consumerLoop q []

/-- persist_messages from __init__.py: the producer runs in the calling
process, so its raised exception propagates out; on normal completion the
producer return value (the pending state) is the result. -/
def persist_messages (msgs : List Msg) : Except String (Option JVal) :=
  (producer msgs).2

/-- Modelled from the spec: the configuration of the Stream Sink batching
pipeline (class ParquetSink of target_parquet/sinks.py, which is not
present under src/).  A threshold set to none is disabled, matching the
spec rule that a non-positive threshold disables the check. -/
structure SinkConfig where
  castByFormat : Bool := false
  maxBatchRows : Option Nat := none
  maxTableMb : Option Nat := none

/-- Modelled from the spec: the per-stream Stream Sink state: the current
flattened schema, its pyarrow schema, the batch accumulator with its
running size estimate, and the batches flushed so far in flush order. -/
structure SinkState where
  schemaDict : FlatSchemaDict
  paSchema : PASchema
  buffer : List RecordDict
  sizeEstimate : Nat
  flushed : List PATable

/-- Modelled from the spec: the Dispatcher state: the Stream Sink registry
(one sink per stream name, created on first SCHEMA) and PendingState. -/
structure PipeState where
  sinks : List (String × SinkState)
  pending : Option JVal

/-- Replace the sink registered under a name, keeping registry order, or
register it at the end when the name is new. -/
def setSink : List (String × SinkState) → String → SinkState → List (String × SinkState)
  | [], s, ss => [(s, ss)]
  | (s0, ss0) :: rest, s, ss =>
      if s0 = s then (s0, ss) :: rest else (s0, ss0) :: setSink rest s ss

/-- Modelled from the spec: flushing a sink materializes its buffer into
one immutable columnar batch under the current schema, appends it to the
flush sequence, and clears the buffer and the size estimate; a flush of an
empty buffer is a no-op. -/
def flushSink (ss : SinkState) : SinkState :=
  if ss.buffer = [] then ss
  else
    { ss with
      flushed := ss.flushed ++ [create_pyarrow_table ss.buffer ss.paSchema]
      buffer := []
      sizeEstimate := 0 }

/-- Modelled from the spec: the dual flush test, checked after every
append: flush is due as soon as the row count or the size estimate meets
its (enabled) threshold.  The per-record size estimate is abstracted to the
number of cells of the record. -/
def thresholdHit (cfg : SinkConfig) (ss : SinkState) : Bool :=
  (match cfg.maxBatchRows with
   | some k => decide (k ≤ ss.buffer.length)
   | none => false) ||
  (match cfg.maxTableMb with
   | some k => decide (k ≤ ss.sizeEstimate)
   | none => false)

/-- Modelled from the spec: one Dispatcher step.  SCHEMA flushes a non-empty
accumulator under the old schema, then replaces (or creates) the sink with
the new schema; an accepted RECORD is flattened, appended and clears
PendingState, then the threshold test may flush; STATE overwrites
PendingState; unknown types are skipped; a RECORD with no prior SCHEMA and
a malformed line are fatal protocol errors. -/
def stepMsg (cfg : SinkConfig) (st : PipeState) : Msg → Except String PipeState
  | Msg.schema s d _ =>
      match flatten_schema_to_pyarrow_schema d cfg.castByFormat with
      | Except.error e => Except.error e
      | Except.ok pas =>
          match st.sinks.find? (fun p => p.1 = s) with
          | some entry =>
              let ss2 := flushSink entry.2
              Except.ok
                { st with
                  sinks := setSink st.sinks s { ss2 with schemaDict := d, paSchema := pas } }
          | none =>
              Except.ok { st with sinks := st.sinks ++ [(s, ⟨d, pas, [], 0, []⟩)] }
  | Msg.record s rec valid =>
      match st.sinks.find? (fun p => p.1 = s) with
      | none =>
          Except.error
            ("A record for stream " ++ s ++ " was encountered before a corresponding schema")
      | some entry =>
          if valid then
            let fr := flattenRecord rec entry.2.schemaDict
            let ss2 :=
              { entry.2 with
                buffer := entry.2.buffer ++ [fr]
                sizeEstimate := entry.2.sizeEstimate + fr.length }
            let ss3 := if thresholdHit cfg ss2 then flushSink ss2 else ss2
            Except.ok { sinks := setSink st.sinks s ss3, pending := none }
          else Except.error "ValidationError"
  | Msg.state v => Except.ok { st with pending := some v }
  | Msg.other _ => Except.ok st
  | Msg.malformed line => Except.error ("Unable to parse:\n" ++ line)

/-- Modelled from the spec: finalize flushes every sink with a non-empty
accumulator unconditionally, after which PendingState is eligible for
emission. -/
def finalizePipe (st : PipeState) : PipeState :=
  { st with sinks := st.sinks.map (fun p => (p.1, flushSink p.2)) }

/-- Modelled from the spec: a whole run: dispatch every message in order,
then finalize. -/
def runPipeline (cfg : SinkConfig) (msgs : List Msg) : Except String PipeState :=
  (msgs.foldlM (stepMsg cfg) ⟨[], none⟩).map finalizePipe

/-- The schema of the C1 scenario: a single string column col_a, nothing
required. -/
def c1Schema : FlatSchemaDict :=
  ⟨[("col_a", { type := some (TypeDecl.listT ["string"]) })], []⟩

/-- The message sequence of the C1 scenario: one SCHEMA, then the records
with col_a equal to x and to y. -/
def c1Msgs : List Msg :=
  [Msg.schema "stream1" c1Schema [],
   Msg.record "stream1" [("col_a", some (PValue.pstr "x"))] true,
   Msg.record "stream1" [("col_a", some (PValue.pstr "y"))] true]

/-- Whether a message is one of the two kinds that touch the pending state
variable of the producer: STATE overwrites it, a processed RECORD clears it. -/
def isStateOrRecord : Msg → Bool
  | Msg.state _ => true
  | Msg.record _ _ _ => true
  | _ => false

/-- The specified pending state of a message sequence: the value of the
most recent STATE message when no RECORD follows it, and none when a RECORD
follows the last STATE message or no STATE message occurs at all. -/
def lastStateSpec (msgs : List Msg) : Option JVal :=
  match msgs.reverse.find? isStateOrRecord with
  | some (Msg.state v) => some v
  | _ => none

/-- lastStateSpec relative to a starting value, matching the threaded state
variable of the producer loop: the starting value survives only runs with
no STATE and no RECORD. -/
def lastStateSpecFrom (msgs : List Msg) (st0 : Option JVal) : Option JVal :=
  match msgs.reverse.find? isStateOrRecord with
  | some (Msg.state v) => some v
  | some _ => none
  | none => st0

mutual

/-- Whether a value contains no Decimal at any depth. -/
def decimalFree : JVal → Bool
  | JVal.jnull => true
  | JVal.jbool _ => true
  | JVal.jint _ => true
  | JVal.jfloat _ => true
  | JVal.jdec _ => false
  | JVal.jstr _ => true
  | JVal.jarr l => decimalFreeList l
  | JVal.jobj l => decimalFreeObj l

/-- decimalFree on array elements. -/
def decimalFreeList : List JVal → Bool
  | [] => true
  | v :: rest => decimalFree v && decimalFreeList rest

/-- decimalFree on object entries. -/
def decimalFreeObj : List (String × JVal) → Bool
  | [] => true
  | (_, v) :: rest => decimalFree v && decimalFreeObj rest

end

/-! ## Helper lemmas -/

/-- The cast-by-format step is the identity unless the resolved type is
STRING and the format is one of the two recognized ones. -/
theorem cast_id_of_not_special (f t : String)
    (h : t ≠ "STRING" ∨ (f ≠ "date-time" ∧ f ≠ "singer.decimal")) :
    _cast_input_type_by_format f t = t := by
  rcases h with h | ⟨h1, h2⟩
  · simp [_cast_input_type_by_format, h]
  · simp [_cast_input_type_by_format, FORMAT_MAPPING, h1, h2]

/-! ## C1 -/

/-- C1: for the input consisting of one SCHEMA declaring the single string
column col_a followed by the two RECORDs with col_a = x and col_a = y, with
no thresholds configured, running the pipeline to finalize succeeds and the
stream has exactly one flushed batch, holding exactly the two rows with
column col_a equal to x then y in input order. -/
theorem c1_finalize_one_batch_two_rows :
    (runPipeline {} c1Msgs).map (fun st => st.sinks.map (fun p => (p.1, p.2.flushed))) =
      Except.ok
        [("stream1",
          [⟨[("col_a", [some (PValue.pstr "x"), some (PValue.pstr "y")])]⟩])] := by
  rfl

/-! ## C4 -/

/-- C4: with cast-by-format enabled, a field whose resolved primitive type
(the first declared non-null type, uppercased) is STRING and whose format
is date-time maps to the timestamp column type, and with format
singer.decimal to the float column type; in every other case (resolved
type not string, or format neither of the two, hence in particular format
absent or unrecognized) the result is exactly the result without the cast. -/
theorem c4_cast_by_format_policy (fn : String) (it : InputTypes) (rf : List String)
    (ts : List String) (hts : pythonTypesList it = some ts) :
    (it.format = some "date-time" → resolvedOf ts = "STRING" →
      (_field_type_to_pyarrow_field fn it rf true).map PAField.ptype =
        Except.ok PAType.paTimestampUs) ∧
    (it.format = some "singer.decimal" → resolvedOf ts = "STRING" →
      (_field_type_to_pyarrow_field fn it rf true).map PAField.ptype =
        Except.ok PAType.paFloat64) ∧
    ((resolvedOf ts ≠ "STRING" ∨
        (it.format ≠ some "date-time" ∧ it.format ≠ some "singer.decimal")) →
      _field_type_to_pyarrow_field fn it rf true =
        _field_type_to_pyarrow_field fn it rf false) := by
  refine ⟨?_, ?_, ?_⟩
  · intro hfmt hres
    simp only [resolvedOf, List.headD_eq_head?] at hres
    simp [_field_type_to_pyarrow_field, hts, hfmt, hres, _cast_input_type_by_format,
      FORMAT_MAPPING, FIELD_TYPE_TO_PYARROW, Except.map]
  · intro hfmt hres
    simp only [resolvedOf, List.headD_eq_head?] at hres
    simp [_field_type_to_pyarrow_field, hts, hfmt, hres, _cast_input_type_by_format,
      FORMAT_MAPPING, FIELD_TYPE_TO_PYARROW, Except.map]
  · intro h
    cases hfm : it.format with
    | none => simp [_field_type_to_pyarrow_field, hts, hfm]
    | some f =>
        by_cases hf : f = ""
        · simp [_field_type_to_pyarrow_field, hts, hfm, hf]
        · have h3 : ((ts.map pyUpper).erase "NULL").head?.getD "" ≠ "STRING" ∨
              (f ≠ "date-time" ∧ f ≠ "singer.decimal") := by
            rcases h with h | ⟨h1, h2⟩
            · exact Or.inl (by simpa [resolvedOf, List.headD_eq_head?] using h)
            · refine Or.inr ⟨fun hc => h1 (by rw [hfm, hc]), fun hc => h2 (by rw [hfm, hc])⟩
          simp [_field_type_to_pyarrow_field, hts, hfm, hf,
            cast_id_of_not_special f _ h3]

/-- C4 witness: at the concrete field with declared types null and string
and format date-time, cast-by-format yields a timestamp column. -/
theorem c4_cast_by_format_policy_witness :
    (_field_type_to_pyarrow_field "a"
        { type := some (TypeDecl.listT ["null", "string"]), format := some "date-time" }
        [] true).map PAField.ptype = Except.ok PAType.paTimestampUs :=
  (c4_cast_by_format_policy "a"
      { type := some (TypeDecl.listT ["null", "string"]), format := some "date-time" }
      [] ["null", "string"] rfl).1 rfl (by decide)

/-! ## C5 -/

/-- C5: the produced pyarrow field is nullable exactly when the declared
type list contains null (compared case-insensitively, i.e. NULL is among
the uppercased entries) or the field name is not among the required fields. -/
theorem c5_nullable_iff (fn : String) (it : InputTypes) (rf : List String)
    (cbf : Bool) (ts : List String) (fld : PAField)
    (hts : pythonTypesList it = some ts)
    (hok : _field_type_to_pyarrow_field fn it rf cbf = Except.ok fld) :
    fld.nullable = true ↔ ("NULL" ∈ ts.map pyUpper ∨ fn ∉ rf) := by
  unfold _field_type_to_pyarrow_field at hok
  rw [hts] at hok
  simp only [Except.ok.injEq] at hok
  subst hok
  simp [List.elem_iff, List.contains, Decidable.imp_iff_not_or, or_comm]

/-- C5 witness: the concrete field with declared types null and string and
an empty required list is nullable. -/
theorem c5_nullable_iff_witness :
    (({ name := "a", ptype := PAType.paString, nullable := true } : PAField).nullable = true ↔
      ("NULL" ∈ ["null", "string"].map pyUpper ∨ "a" ∉ ([] : List String))) :=
  c5_nullable_iff "a" { type := some (TypeDecl.listT ["null", "string"]) } [] false
    ["null", "string"] { name := "a", ptype := PAType.paString, nullable := true }
    rfl rfl

/-! ## C8 -/

/-- C8: _field_type_to_pyarrow_field never raises on a field whose computed
declared type list is empty after removing NULL, or whose first remaining
type name is not one of the recognized kinds: in both cases it returns a
string-typed field. -/
theorem c8_unrecognized_type_defaults_to_string (fn : String) (it : InputTypes)
    (rf : List String) (cbf : Bool) (ts : List String)
    (hts : pythonTypesList it = some ts)
    (hbad : (ts.map pyUpper).erase "NULL" = [] ∨
      FIELD_TYPE_TO_PYARROW (resolvedOf ts) = none) :
    ∃ b, _field_type_to_pyarrow_field fn it rf cbf =
      Except.ok { name := fn, ptype := PAType.paString, nullable := b } := by
  have hnone : FIELD_TYPE_TO_PYARROW (resolvedOf ts) = none := by
    rcases hbad with h | h
    · simp [resolvedOf, h]
      rfl
    · exact h
  have hns : resolvedOf ts ≠ "STRING" := by
    intro hc
    rw [hc] at hnone
    simp [FIELD_TYPE_TO_PYARROW] at hnone
  have hcast : ∀ f : String, _cast_input_type_by_format f (resolvedOf ts) = resolvedOf ts :=
    fun f => cast_id_of_not_special f _ (Or.inl hns)
  simp only [resolvedOf, List.headD_eq_head?] at hnone hcast
  refine ⟨(ts.map pyUpper).contains "NULL" || ! rf.contains fn, ?_⟩
  cases cbf with
  | false =>
      simp [_field_type_to_pyarrow_field, hts, hnone]
  | true =>
      cases hfm : it.format with
      | none =>
          simp [_field_type_to_pyarrow_field, hts, hfm, hnone]
      | some f =>
          by_cases hf : f = ""
          · simp [_field_type_to_pyarrow_field, hts, hfm, hf, hnone]
          · simp [_field_type_to_pyarrow_field, hts, hfm, hf, hcast f, hnone]

/-- C8 witness: the concrete field declared with the unrecognized type name
complex yields a string-typed field rather than an error. -/
theorem c8_unrecognized_type_defaults_to_string_witness :
    ∃ b, _field_type_to_pyarrow_field "a" { type := some (TypeDecl.listT ["complex"]) }
        [] false =
      Except.ok { name := "a", ptype := PAType.paString, nullable := b } :=
  c8_unrecognized_type_defaults_to_string "a" { type := some (TypeDecl.listT ["complex"]) }
    [] false ["complex"] rfl (Or.inr (by decide))

/-! ## C6 -/

/-- C6: the table built from a record list and a schema has exactly the
schema fields as columns, in schema order, and the column of the i-th field
lists, in record order, the looked-up value of that field name in each
record (null when absent); keys outside the schema never appear. -/
theorem c6_create_table_shape (rs : List RecordDict) (S : PASchema) :
    (create_pyarrow_table rs S).cols.map Prod.fst = S.map PAField.name ∧
    (∀ i : Nat, ((create_pyarrow_table rs S).cols[i]?).map Prod.snd =
      (S[i]?).map (fun f => rs.map (fun r => dictGet r f.name))) := by
  constructor
  · simp [create_pyarrow_table]
  · intro i
    simp only [create_pyarrow_table, List.getElem?_map]
    cases S[i]? <;> rfl

/-! ## C9 -/

/-- The columns of a created table carry exactly the schema field names. -/
theorem create_pyarrow_table_names (rs : List RecordDict) (S : PASchema) :
    (create_pyarrow_table rs S).cols.map Prod.fst = S.map PAField.name := by
  simp [create_pyarrow_table]

/-- Concatenating a table all of whose columns are empty onto a table with
the same column names is the identity on the second table. -/
theorem pa_concat_two_nil_left (t1 t2 : PATable)
    (hnames : t1.cols.map Prod.fst = t2.cols.map Prod.fst)
    (hlen : ∀ c ∈ t1.cols, c.2 = []) :
    pa_concat_two t1 t2 = t2 := by
  cases t1 with
  | mk cols1 =>
      cases t2 with
      | mk cols2 =>
          simp only [pa_concat_two, PATable.mk.injEq]
          simp only at hnames hlen
          induction cols1 generalizing cols2 with
          | nil =>
              have : cols2.map Prod.fst = [] := hnames.symm
              simp_all
          | cons c rest ih =>
              cases cols2 with
              | nil => simp at hnames
              | cons c2 rest2 =>
                  simp only [List.map_cons, List.cons.injEq] at hnames
                  have hc : c.2 = [] := hlen c (by simp)
                  simp only [List.zip_cons_cons, List.map_cons, List.cons.injEq]
                  refine ⟨by rw [hnames.1, hc]; simp, ?_⟩
                  exact ih (fun d hd => hlen d (by simp [hd])) rest2 hnames.2

/-- C9: concat_tables is the identity on the existing table when the record
list is empty; otherwise the result appends the rows built from the records
after all rows of the existing table (a missing existing table contributes
no rows). -/
theorem c9_concat_tables (records : List RecordDict) (t : Option PATable) (S : PASchema) :
    (records = [] → concat_tables records t S = t) ∧
    (records ≠ [] → t = none →
      concat_tables records t S = some (create_pyarrow_table records S)) ∧
    (∀ tt, records ≠ [] → t = some tt →
      tt.cols.map Prod.fst = S.map PAField.name →
      (∀ c ∈ tt.cols, c.2.length = tt.numRows) →
      concat_tables records t S =
        some (pa_concat_two tt (create_pyarrow_table records S))) := by
  refine ⟨fun h => by simp [concat_tables, h], fun h ht => by simp [concat_tables, h, ht], ?_⟩
  intro tt hrec ht hnames hlen
  subst ht
  by_cases hrows : 0 < tt.numRows
  · simp [concat_tables, hrec, hrows]
  · have hall : ∀ c ∈ tt.cols, c.2 = [] := by
      intro c hc
      have h1 := hlen c hc
      rw [Nat.eq_zero_of_not_pos hrows] at h1
      exact List.eq_nil_of_length_eq_zero h1
    simp [concat_tables, hrec, hrows]
    rw [pa_concat_two_nil_left tt (create_pyarrow_table records S)
      (by rw [hnames, create_pyarrow_table_names]) hall]

/-- C9 witness: at a concrete non-empty record list and a concrete one-row
existing table, the result is the existing row followed by the new row. -/
theorem c9_concat_tables_witness :
    concat_tables [[("a", some (PValue.pstr "x"))]]
        (some ⟨[("a", [some (PValue.pstr "y")])]⟩) [⟨"a", PAType.paString, true⟩] =
      some (pa_concat_two ⟨[("a", [some (PValue.pstr "y")])]⟩
        (create_pyarrow_table [[("a", some (PValue.pstr "x"))]]
          [⟨"a", PAType.paString, true⟩])) :=
  (c9_concat_tables [[("a", some (PValue.pstr "x"))]]
      (some ⟨[("a", [some (PValue.pstr "y")])]⟩) [⟨"a", PAType.paString, true⟩]).2.2
    ⟨[("a", [some (PValue.pstr "y")])]⟩ (by simp) rfl (by rfl) (by decide)

/-! ## C7 -/

mutual

/-- The DecimalEncoder output of a value is the plain JSON encoding of the
value with its Decimals replaced by floats. -/
theorem dumps_norm : ∀ v : JVal,
    json_dumps (normalizeDecimals v) = some (json_dumps_decimal_encoder v)
  | JVal.jnull => rfl
  | JVal.jbool _ => rfl
  | JVal.jint _ => rfl
  | JVal.jfloat _ => rfl
  | JVal.jdec _ => rfl
  | JVal.jstr _ => rfl
  | JVal.jarr l => by
      simp [normalizeDecimals, json_dumps, json_dumps_decimal_encoder, dumpsList_norm l]
  | JVal.jobj l => by
      simp [normalizeDecimals, json_dumps, json_dumps_decimal_encoder, dumpsObj_norm l]

/-- dumps_norm lifted to array bodies. -/
theorem dumpsList_norm : ∀ l : List JVal,
    dumpsList (normList l) = some (dumpsListEnc l)
  | [] => rfl
  | [v] => by simp [normList, dumpsList, dumpsListEnc, dumps_norm v]
  | v :: w :: rest => by
      have h2 := dumpsList_norm (w :: rest)
      simp only [normList] at h2
      simp [normList, dumpsList, dumpsListEnc, dumps_norm v, h2]

/-- dumps_norm lifted to object bodies. -/
theorem dumpsObj_norm : ∀ l : List (String × JVal),
    dumpsObj (normObj l) = some (dumpsObjEnc l)
  | [] => rfl
  | [(k, v)] => by simp [normObj, dumpsObj, dumpsObjEnc, dumps_norm v]
  | (k, v) :: w :: rest => by
      have h2 := dumpsObj_norm (w :: rest)
      simp only [normObj] at h2
      simp [normObj, dumpsObj, dumpsObjEnc, dumps_norm v, h2]

end

mutual

/-- normalizeDecimals keeps a Decimal-free value unchanged. -/
theorem norm_id_of_decimalFree : ∀ v : JVal, decimalFree v = true → normalizeDecimals v = v
  | JVal.jnull, _ => rfl
  | JVal.jbool _, _ => rfl
  | JVal.jint _, _ => rfl
  | JVal.jfloat _, _ => rfl
  | JVal.jstr _, _ => rfl
  | JVal.jarr l, h => by
      simp only [normalizeDecimals, JVal.jarr.injEq]
      exact normList_id l (by simpa [decimalFree] using h)
  | JVal.jobj l, h => by
      simp only [normalizeDecimals, JVal.jobj.injEq]
      exact normObj_id l (by simpa [decimalFree] using h)

/-- norm_id_of_decimalFree lifted to array bodies. -/
theorem normList_id : ∀ l : List JVal, decimalFreeList l = true → normList l = l
  | [], _ => rfl
  | v :: rest, h => by
      simp only [decimalFreeList, Bool.and_eq_true] at h
      simp only [normList, List.cons.injEq]
      exact ⟨norm_id_of_decimalFree v h.1, normList_id rest h.2⟩

/-- norm_id_of_decimalFree lifted to object bodies. -/
theorem normObj_id : ∀ l : List (String × JVal), decimalFreeObj l = true → normObj l = l
  | [], _ => rfl
  | (k, v) :: rest, h => by
      simp only [decimalFreeObj, Bool.and_eq_true] at h
      simp only [normObj, List.cons.injEq]
      exact ⟨by rw [norm_id_of_decimalFree v h.1], normObj_id rest h.2⟩

end

/-- C7: the emitted checkpoint line is the DecimalEncoder encoding of the
state plus a newline, the DecimalEncoder encoding is exactly the plain JSON
encoding of the state with every Decimal (at any depth) replaced by its
float equivalent, and a state without Decimals is encoded unchanged. -/
theorem c7_state_line_decimal_encoding (v : JVal) :
    _write_state_message v = json_dumps_decimal_encoder v ++ "\n" ∧
    json_dumps (normalizeDecimals v) = some (json_dumps_decimal_encoder v) ∧
    (decimalFree v = true → normalizeDecimals v = v) :=
  ⟨rfl, dumps_norm v, norm_id_of_decimalFree v⟩

/-- C7 witness: at the concrete state object holding a Decimal inside an
array, the identities hold and the Decimal-free sub-check is discharged on
a Decimal-free variant. -/
theorem c7_state_line_decimal_encoding_witness :
    (_write_state_message (JVal.jobj [("a", JVal.jint 1)]) =
      json_dumps_decimal_encoder (JVal.jobj [("a", JVal.jint 1)]) ++ "\n") ∧
    json_dumps (normalizeDecimals (JVal.jobj [("a", JVal.jint 1)])) =
      some (json_dumps_decimal_encoder (JVal.jobj [("a", JVal.jint 1)])) ∧
    normalizeDecimals (JVal.jobj [("a", JVal.jint 1)]) = JVal.jobj [("a", JVal.jint 1)] :=
  ⟨(c7_state_line_decimal_encoding (JVal.jobj [("a", JVal.jint 1)])).1,
   (c7_state_line_decimal_encoding (JVal.jobj [("a", JVal.jint 1)])).2.1,
   (c7_state_line_decimal_encoding (JVal.jobj [("a", JVal.jint 1)])).2.2 rfl⟩

/-! ## C10 -/

/-- The consumer of __init__.py never accumulates a file: every write in
its loop body is commented out. -/
theorem consumerLoop_id : ∀ (q : List QItem) (files : List String),
    consumerLoop q files = files
  | [], _ => rfl
  | QItem.qeof :: _, _ => rfl
  | QItem.qrecord _ _ :: rest, files => consumerLoop_id rest files
  | QItem.qschema _ _ :: rest, files => consumerLoop_id rest files

/-- The queue trace of the producer is some EOF-free prefix followed by
exactly one EOF sentinel, on the normal path and on every error path. -/
theorem producerLoop_queue_shape :
    ∀ (msgs : List Msg) (schemas : List (String × FlatSchemaDict)) (st : Option JVal),
    ∃ q', (producerLoop msgs schemas st).1 = q' ++ [QItem.qeof] ∧ QItem.qeof ∉ q'
  | [], _, _ => ⟨[], rfl, by simp⟩
  | Msg.malformed line :: _, _, _ => ⟨[], rfl, by simp⟩
  | Msg.record s rec valid :: rest, schemas, st => by
      cases hf : schemas.find? (fun p => p.1 = s) with
      | none => exact ⟨[], by simp [producerLoop, hf], by simp⟩
      | some entry =>
          cases valid with
          | false => exact ⟨[], by simp [producerLoop, hf], by simp⟩
          | true =>
              obtain ⟨q', h1, h2⟩ := producerLoop_queue_shape rest schemas none
              exact ⟨QItem.qrecord s (flattenRecord rec entry.2) :: q',
                by simp [producerLoop, hf, h1], by simp [h2]⟩
  | Msg.state v :: rest, schemas, st => producerLoop_queue_shape rest schemas (some v)
  | Msg.schema s d kp :: rest, schemas, st => by
      obtain ⟨q', h1, h2⟩ := producerLoop_queue_shape rest ((s, d) :: schemas) st
      exact ⟨QItem.qschema s d.properties :: q', by simp [producerLoop, h1], by simp [h2]⟩
  | Msg.other t :: rest, schemas, st => producerLoop_queue_shape rest schemas st

/-- C10: for every message list the producer puts exactly one EOF sentinel
on the queue, and it is the last item put, both on normal completion and on
an aborting run, so the consumer loop always reaches its break. -/
theorem c10_producer_always_ends_with_one_eof (msgs : List Msg) :
    (producer msgs).1.count QItem.qeof = 1 ∧
    (producer msgs).1.getLast? = some QItem.qeof := by
  obtain ⟨q', h1, h2⟩ := producerLoop_queue_shape msgs [] none
  unfold producer
  rw [h1]
  constructor
  · rw [List.count_append]
    rw [List.count_eq_zero.mpr h2]
    rfl
  · exact List.getLast?_concat q'

/-! ## C2 -/

/-- In a run whose schemas registry has no entry for the stream s and whose
remaining input contains a RECORD for s before any SCHEMA for s, the
producer aborts with an error and never enqueues a RECORD item for s. -/
theorem producerLoop_record_before_schema (s : String) (rec : RecordDict) (valid : Bool) :
    ∀ (pre post : List Msg) (schemas : List (String × FlatSchemaDict)) (st : Option JVal),
    (∀ m ∈ pre, ∀ d kp, m ≠ Msg.schema s d kp) →
    schemas.find? (fun p => p.1 = s) = none →
    (∃ e, (producerLoop (pre ++ Msg.record s rec valid :: post) schemas st).2 =
      Except.error e) ∧
    (∀ payload, QItem.qrecord s payload ∉
      (producerLoop (pre ++ Msg.record s rec valid :: post) schemas st).1)
  | [], post, schemas, st, _, hfind => by
      refine ⟨⟨"A record for stream " ++ s ++ " was encountered before a corresponding schema",
        by simp [producerLoop, hfind]⟩, ?_⟩
      intro payload
      simp [producerLoop, hfind]
  | Msg.malformed line :: pre, post, schemas, st, _, _ => by
      refine ⟨⟨"Unable to parse:\n" ++ line, by simp [producerLoop]⟩, ?_⟩
      intro payload
      simp [producerLoop]
  | Msg.record s2 rec2 v2 :: pre, post, schemas, st, hpre, hfind => by
      cases hf : schemas.find? (fun p => p.1 = s2) with
      | none =>
          refine ⟨⟨"A record for stream " ++ s2 ++
            " was encountered before a corresponding schema",
            by simp [producerLoop, hf]⟩, ?_⟩
          intro payload
          simp [producerLoop, hf]
      | some entry =>
          have hne : s2 ≠ s := by
            intro hc
            subst hc
            rw [hfind] at hf
            exact Option.noConfusion hf
          cases v2 with
          | false =>
              refine ⟨⟨"ValidationError", by simp [producerLoop, hf]⟩, ?_⟩
              intro payload
              simp [producerLoop, hf]
          | true =>
              obtain ⟨herr, hmem⟩ := producerLoop_record_before_schema s rec valid pre post
                schemas none (fun m hm => hpre m (by simp [hm])) hfind
              refine ⟨by simpa [producerLoop, hf] using herr, ?_⟩
              intro payload
              simp only [producerLoop, hf, if_true, List.cons_append, List.mem_cons]
              rintro (hc | hc)
              · simp only [QItem.qrecord.injEq] at hc
                exact hne hc.1.symm
              · exact hmem payload hc
  | Msg.state v :: pre, post, schemas, st, hpre, hfind =>
      producerLoop_record_before_schema s rec valid pre post schemas (some v)
        (fun m hm => hpre m (by simp [hm])) hfind
  | Msg.schema s2 d kp :: pre, post, schemas, st, hpre, hfind => by
      have hne : s2 ≠ s := by
        intro hc
        subst hc
        exact hpre (Msg.schema s2 d kp) (by simp) d kp rfl
      have hfind2 : ((s2, d) :: schemas).find? (fun p => p.1 = s) = none := by
        simp [List.find?, hne, hfind]
      obtain ⟨herr, hmem⟩ := producerLoop_record_before_schema s rec valid pre post
        ((s2, d) :: schemas) st (fun m hm => hpre m (by simp [hm])) hfind2
      refine ⟨by simpa [producerLoop] using herr, ?_⟩
      intro payload
      simp only [producerLoop, List.cons_append, List.mem_cons]
      rintro (hc | hc)
      · exact QItem.noConfusion hc
      · exact hmem payload hc
  | Msg.other t :: pre, post, schemas, st, hpre, hfind =>
      producerLoop_record_before_schema s rec valid pre post schemas st
        (fun m hm => hpre m (by simp [hm])) hfind

/-- C2: a RECORD message for a stream with no earlier SCHEMA for that
stream makes the run abort with an error that propagates out of
persist_messages, no RECORD item for that stream is ever enqueued, and no
file is written. -/
theorem c2_record_before_schema_aborts (pre post : List Msg) (s : String)
    (rec : RecordDict) (valid : Bool)
    (hpre : ∀ m ∈ pre, ∀ d kp, m ≠ Msg.schema s d kp) :
    (∃ e, persist_messages (pre ++ Msg.record s rec valid :: post) = Except.error e) ∧
    (∀ payload, QItem.qrecord s payload ∉
      (producer (pre ++ Msg.record s rec valid :: post)).1) ∧
    consumer (producer (pre ++ Msg.record s rec valid :: post)).1 = [] := by
  obtain ⟨herr, hmem⟩ :=
    producerLoop_record_before_schema s rec valid pre post [] none hpre rfl
  exact ⟨herr, hmem, consumerLoop_id _ _⟩

/-- C2 witness: the single-message input consisting of one RECORD for the
stream s2 aborts and writes nothing. -/
theorem c2_record_before_schema_aborts_witness :
    (∃ e, persist_messages [Msg.record "s2" [] true] = Except.error e) ∧
    (∀ payload, QItem.qrecord "s2" payload ∉ (producer [Msg.record "s2" [] true]).1) ∧
    consumer (producer [Msg.record "s2" [] true]).1 = [] :=
  c2_record_before_schema_aborts [] [] "s2" [] true (by simp)

/-! ## C3 -/

/-- Skipping a message that is neither STATE nor RECORD leaves the tracked
pending state alone. -/
theorem lastStateSpecFrom_cons_skip (m : Msg) (rest : List Msg) (st0 : Option JVal)
    (h : isStateOrRecord m = false) :
    lastStateSpecFrom (m :: rest) st0 = lastStateSpecFrom rest st0 := by
  unfold lastStateSpecFrom
  rw [List.reverse_cons, List.find?_append]
  cases hr : rest.reverse.find? isStateOrRecord with
  | some v => rfl
  | none => simp [List.find?, h]

/-- A leading STATE message replaces the starting pending state. -/
theorem lastStateSpecFrom_cons_state (v : JVal) (rest : List Msg) (st0 : Option JVal) :
    lastStateSpecFrom (Msg.state v :: rest) st0 = lastStateSpecFrom rest (some v) := by
  unfold lastStateSpecFrom
  rw [List.reverse_cons, List.find?_append]
  cases hr : rest.reverse.find? isStateOrRecord with
  | some w => cases w <;> rfl
  | none => simp [List.find?, isStateOrRecord]

/-- A leading RECORD message clears the starting pending state. -/
theorem lastStateSpecFrom_cons_record (s : String) (r : RecordDict) (b : Bool)
    (rest : List Msg) (st0 : Option JVal) :
    lastStateSpecFrom (Msg.record s r b :: rest) st0 = lastStateSpecFrom rest none := by
  unfold lastStateSpecFrom
  rw [List.reverse_cons, List.find?_append]
  cases hr : rest.reverse.find? isStateOrRecord with
  | some w => cases w <;> rfl
  | none => simp [List.find?, isStateOrRecord]

/-- The producer loop returns, on normal completion, exactly the tracked
pending state described by lastStateSpecFrom. -/
theorem producerLoop_final_state :
    ∀ (msgs : List Msg) (schemas : List (String × FlatSchemaDict)) (st0 st : Option JVal),
    (producerLoop msgs schemas st0).2 = Except.ok st → st = lastStateSpecFrom msgs st0
  | [], schemas, st0, st, h => by
      simp only [producerLoop, Except.ok.injEq] at h
      subst h
      rfl
  | Msg.malformed line :: rest, schemas, st0, st, h => by
      simp [producerLoop] at h
  | Msg.record s rec valid :: rest, schemas, st0, st, h => by
      rw [lastStateSpecFrom_cons_record]
      cases hf : schemas.find? (fun p => p.1 = s) with
      | none => rw [producerLoop] at h; rw [hf] at h; exact absurd h (by simp)
      | some entry =>
          cases valid with
          | false => rw [producerLoop] at h; rw [hf] at h; exact absurd h (by simp)
          | true =>
              rw [producerLoop] at h
              rw [hf] at h
              exact producerLoop_final_state rest schemas none st h
  | Msg.state v :: rest, schemas, st0, st, h => by
      rw [lastStateSpecFrom_cons_state]
      exact producerLoop_final_state rest schemas (some v) st h
  | Msg.schema s d kp :: rest, schemas, st0, st, h => by
      rw [lastStateSpecFrom_cons_skip (Msg.schema s d kp) rest st0 rfl]
      exact producerLoop_final_state rest ((s, d) :: schemas) st0 st h
  | Msg.other t :: rest, schemas, st0, st, h => by
      rw [lastStateSpecFrom_cons_skip (Msg.other t) rest st0 rfl]
      exact producerLoop_final_state rest schemas st0 st h

/-- C3: on a normally completed run, the state persist_messages returns is
the value of the most recent STATE message when no RECORD was processed
after it, and none when a RECORD follows the last STATE message or no
STATE message occurs; each STATE message overwrites the previous value. -/
theorem c3_pending_state (msgs : List Msg) (st : Option JVal)
    (h : persist_messages msgs = Except.ok st) :
    st = lastStateSpec msgs := by
  have h2 := producerLoop_final_state msgs [] none st h
  rw [h2]
  unfold lastStateSpecFrom lastStateSpec
  cases hr : msgs.reverse.find? isStateOrRecord with
  | none => rfl
  | some m => cases m <;> rfl

/-- C3 witness: a run of one STATE message followed by an unknown message
returns exactly that state value. -/
theorem c3_pending_state_witness :
    (some (JVal.jint 7) : Option JVal) = lastStateSpec [Msg.state (JVal.jint 7), Msg.other "X"] :=
  c3_pending_state [Msg.state (JVal.jint 7), Msg.other "X"] (some (JVal.jint 7)) rfl

end TargetParquet
